import Mathlib

/-!
Verification of the predictive leader-placement controller (P-Raft).

Shallow embedding of the repository's Python sources:
* `src/B/etcd-release-3.4/moveleader.py` — quorum-aware cost model
  (`OptimalLeaderCalculator`: `get_latency`, `calculate_commit_latency`,
  `calculate_total_latency`, `find_optimal_leader`).
* `src/A/ROOT/predict_leader.py` — control loop: the per-tick cost variant
  (`calculate_total_latency` / `find_optimal_leader` without commit latency),
  the downgrade check in `main`, `check_and_transfer_leader`,
  `move_leader_with_timing`, and the hot-reload machinery
  (`ModelReloader.changed_and_stable` / `mark_loaded`, `ReloadWorker.run`).
* `src/B/ROOT/leader_logger.py` — `BufferedPredictedLeaderWriter`.

Machine integers of the sources are embedded as `Int`/`Nat` (Python ints are
unbounded, so no modular reduction is needed); the float load rates of the
control-loop variant are embedded as `ℚ` with Python's truncating `int()`
made explicit.
-/

namespace PRaft

/-! ## moveleader.py: data model and hard-coded latency table -/

/-- `Domain` from `moveleader.py`: one cluster member, with its id, IP
address, node count (voting weight) and integer read/write request rates
(parsed with `int(...)` from the CSV). -/
structure Domain where
  id : String
  address : String
  nodes : Nat
  read_requests : Int
  write_requests : Int
deriving DecidableEq, Repr

/-- `self.ip_to_index` — the hard-coded IP-to-matrix-index dictionary. -/
def ip_to_index (ip : String) : Option Nat :=
  if ip = "192.168.0.38" then some 0
  else if ip = "192.168.0.82" then some 1
  else if ip = "192.168.0.223" then some 2
  else none

/-- `self.latency_matrix` — hard-coded symmetric RTT matrix (ms). -/
def latency_matrix : List (List Nat) :=
  [[0, 30, 40], [30, 0, 50], [40, 50, 0]]

/-- `get_latency`: matrix lookup; unknown addresses yield the sentinel 999.
Indices produced by `ip_to_index` are always in range, so the `getD`
defaults are never consulted. -/
def get_latency (from_ip to_ip : String) : Nat :=
  match ip_to_index from_ip, ip_to_index to_ip with
  | some fi, some ti => (latency_matrix.getD fi []).getD ti 0
  | _, _ => 999

/-! The cost-model functions are methods of `OptimalLeaderCalculator`; the
only piece of `self` they consult is `get_latency`, which we pass as the
parameter `lat`.  All claim theorems also hold for the concrete
`get_latency` above. -/

/-- The latency list built inside `calculate_commit_latency`: the latency
from the candidate leader to every domain whose id differs from the
leader's. -/
def othersLatencies (lat : String → String → Nat) (L : Domain)
    (ds : List Domain) : List Nat :=
  (ds.filter (fun d => d.id ≠ L.id)).map (fun d => lat L.address d.address)

/-- `calculate_commit_latency`: sort the peer latencies ascending; with
`followers_needed = quorum_size - 1`, return `math.inf` (embedded as
`none`) when `followers_needed > len(latencies)`, `0` when
`followers_needed ≤ 0`, else `latencies[followers_needed - 1]`.  The index
is in range in that last branch, so `getD`'s default is never consulted. -/
def calculate_commit_latency (lat : String → String → Nat) (L : Domain)
    (ds : List Domain) (quorum_size : Nat) : Option Nat :=
  let lats := (othersLatencies lat L ds).insertionSort (· ≤ ·)
  let fn : Int := (quorum_size : Int) - 1
  if fn > (lats.length : Int) then none
  else if fn ≤ 0 then some 0
  else some (lats.getD (fn - 1).toNat 0)

/-- `calculate_total_latency`: one pass over the domains accumulating the
read-latency total and the write-request total, then add
`commit_latency * total_write_requests`. -/
def calculate_total_latency (lat : String → String → Nat) (L : Domain)
    (ds : List Domain) (commit_latency : Nat) : Int :=
  let p := ds.foldl
    (fun (acc : Int × Int) d =>
      (acc.1 + d.read_requests *
        (if d.id = L.id then 0 else (lat L.address d.address : Int)),
       acc.2 + d.write_requests))
    (0, 0)
  p.1 + (commit_latency : Int) * p.2

/-- Modelled from the spec's formula (§4.1, step 4), for the refinement in
C1: `d(L,i)` is 0 at the leader itself, else the latency from L to i. -/
def spec_dLi (lat : String → String → Nat) (L d : Domain) : Int :=
  if d.id = L.id then 0 else (lat L.address d.address : Int)

/-- Modelled from the spec's formula (§4.1, step 4), for the refinement in
C1: `T(L) = Σ_i readRate_i · d(L,i) + W(L) · Σ_i writeRate_i`. -/
def specTotalCost (lat : String → String → Nat) (L : Domain)
    (ds : List Domain) (w : Nat) : Int :=
  (ds.map (fun d => d.read_requests * spec_dLi lat L d)).sum
    + (w : Int) * (ds.map (·.write_requests)).sum

/-- `quorum_size = math.floor(total_nodes / 2) + 1` inside
`find_optimal_leader`. -/
def quorumSize (ds : List Domain) : Nat :=
  (ds.map (·.nodes)).sum / 2 + 1

/-- One iteration of the candidate loop in `find_optimal_leader`: skip an
infeasible candidate, otherwise keep it when its total latency is strictly
below the best so far (`None` = the initial `float('inf')` state). -/
def findStep (lat : String → String → Nat) (ds : List Domain)
    (quorum_size : Nat) (acc : Option (Domain × Int)) (cand : Domain) :
    Option (Domain × Int) :=
  match calculate_commit_latency lat cand ds quorum_size with
  | none => acc
  | some w =>
    let t := calculate_total_latency lat cand ds w
    match acc with
    | none => some (cand, t)
    | some (b, c) => if t < c then some (cand, t) else some (b, c)

/-- The candidate loop of `find_optimal_leader`. -/
def find_optimal_core (lat : String → String → Nat) (ds : List Domain) :
    Option (Domain × Int) :=
  ds.foldl (findStep lat ds (quorumSize ds)) none

/-- Second component of the tuple `find_optimal_leader` returns: either the
minimal latency, or — via the conditional-expression precedence in
`return optimal_leader, min_total_latency if optimal_leader else (None, None)`
— the nested pair `(None, None)`. -/
inductive PyCost where
  | num (n : Int)
  | nonePair
deriving DecidableEq, Repr

/-- The value `find_optimal_leader` returns: the bare `None` of the empty
branch, or the two-tuple of the final `return` statement. -/
inductive FindReturn where
  | bareNone
  | tuple (leader : Option Domain) (cost : PyCost)
deriving DecidableEq, Repr

/-- `find_optimal_leader` (moveleader.py).  `if not domains: return None`;
otherwise the candidate loop, then
`return optimal_leader, min_total_latency if optimal_leader else (None, None)`,
which Python parses as
`(optimal_leader, (min_total_latency if optimal_leader else (None, None)))`. -/
def find_optimal_leader (lat : String → String → Nat) (ds : List Domain) :
    FindReturn :=
  if ds = [] then .bareNone
  else
    match find_optimal_core lat ds with
    | none => .tuple none .nonePair
    | some (b, c) => .tuple (some b) (.num c)

/-! ## predict_leader.py: control-loop cost variant -/

/-- `Domain` from `predict_leader.py`: same shape, but the request rates are
floats (horizon means), embedded as `ℚ`. -/
structure DomainQ where
  id : String
  address : String
  nodes : Nat
  read_requests : ℚ
  write_requests : ℚ
deriving DecidableEq, Repr

/-- Python's `int(...)` on a float/rational: truncation toward zero. -/
def pyint (q : ℚ) : Int :=
  if 0 ≤ q then q.floor else q.ceil

/-- `calculate_total_latency` of `predict_leader.py`: the loop accumulates
`int((read + write) * latency)` per domain; there is no commit-latency
term. -/
def calculate_total_latency_A (lat : String → String → Nat) (L : DomainQ)
    (ds : List DomainQ) : Int :=
  ds.foldl
    (fun acc d =>
      acc + pyint ((d.read_requests + d.write_requests) *
        (if d.id = L.id then 0 else (lat L.address d.address : ℚ))))
    0

/-- The control-loop cost variant written as a plain sum (for the amended
C1): `Σ_i int((readRate_i + writeRate_i) · d(L,i))`, point-to-point, no
quorum-gated write component. -/
def specPointToPointCost (lat : String → String → Nat) (L : DomainQ)
    (ds : List DomainQ) : Int :=
  (ds.map (fun d => pyint ((d.read_requests + d.write_requests) *
    (if d.id = L.id then 0 else (lat L.address d.address : ℚ))))).sum

/-- `find_optimal_leader` of `predict_leader.py`: `(None, None)` on the
empty set, otherwise the strictly-improving scan over all candidates (every
candidate has a finite cost — there is no feasibility check). -/
def find_optimal_leader_A (lat : String → String → Nat)
    (ds : List DomainQ) : Option DomainQ × Option Int :=
  if ds = [] then (none, none)
  else
    match ds.foldl
      (fun (acc : Option (DomainQ × Int)) cand =>
        let cost := calculate_total_latency_A lat cand ds
        match acc with
        | none => some (cand, cost)
        | some (b, c) => if cost < c then some (cand, cost) else some (b, c))
      none with
    | none => (none, none)
    | some (b, c) => (some b, some c)

/-- `self.IpToId` of `predict_leader.py` — the static `address:port →
cluster-member-identity` map. -/
def IpToId (ep : String) : Option String :=
  if ep = "192.168.0.38:2379" then some "933ca51d2bb602b8"
  else if ep = "192.168.0.38:3379" then some "6181f76d6668aeb0"
  else if ep = "192.168.0.38:4379" then some "69948e3d245f62b7"
  else if ep = "192.168.0.82:2379" then some "b92b49a4de72942d"
  else if ep = "192.168.0.82:3379" then some "3cdaf029c87a002"
  else if ep = "192.168.0.82:4379" then some "5b3ba363fb10d52f"
  else if ep = "192.168.0.223:2379" then some "69f554c3f7f50a72"
  else if ep = "192.168.0.223:3379" then some "8861d1f6a0217629"
  else if ep = "192.168.0.223:4379" then some "512e070e8eb32959"
  else none

/-- `self.IpToId.get(endpoint, "unknown")` in `check_and_transfer_leader`:
the member identity passed to `move-leader`. -/
def cmdIdentity (optimal_leader_ip : String) : String :=
  (IpToId (optimal_leader_ip ++ ":2379")).getD "unknown"

/-- The `etcdctl` command list built by `check_and_transfer_leader` of
`predict_leader.py`: `--endpoints` is `current_leader_ip + ":2379"`, the
`move-leader` argument is the identity of `optimal_leader_ip + ":2379"`. -/
def transferCmd (current_leader_ip optimal_leader_ip : String) :
    List String :=
  ["/etcd/etcd-release-3.4/bin/etcdctl",
   "--endpoints=" ++ (current_leader_ip ++ ":2379"),
   "move-leader",
   cmdIdentity optimal_leader_ip]

/-- `get_current_leader_ip` of `predict_leader.py`: opens a UDP socket to
8.8.8.8 and returns the *local* machine's own IP; no cluster query of any
kind is made.  Embedded as the identity on the locally detected IP. -/
def get_current_leader_ip (local_ip : String) : String := local_ip

/-- Python truthiness of the `optimal_ip` value in
`if will_move and not optimal_ip:` — falsy iff `None` or the empty
string. -/
def pyFalsy (o : Option String) : Bool :=
  (o.getD "").isEmpty

/-- The decision part of `run_once_and_decide` (after the forecast built
the domain list): empty list → keep-self with no target; otherwise the
selected leader's address is the target and `is_self` compares it with the
local IP. -/
def run_once_decision (self_ip : String) (ds : List DomainQ) :
    Bool × Option String :=
  if ds = [] then (true, none)
  else
    match find_optimal_leader_A get_latency ds with
    | (none, _) => (true, none)
    | (some o, _) => (decide (o.address = self_ip), some o.address)

/-- Outcome of one tick of `main`'s loop after the decision: either keep
(the logged leader is the local IP) or enter the migration path with the
full `etcdctl` command. -/
inductive TickOutcome where
  | keep (logged_ip : String)
  | migrate (target : String) (cmd : List String)
deriving DecidableEq, Repr

/-- Lines 474–501 of `predict_leader.py`: `will_move = not is_self`; the
only downgrade is `if will_move and not optimal_ip: will_move = False`;
a surviving `will_move` enters the migration path, whose command is built
by `check_and_transfer_leader` from the local IP and the target. -/
def tickDecision (self_ip : String) (is_self : Bool)
    (optimal_ip : Option String) : TickOutcome :=
  let wm0 := !is_self
  let wm := if wm0 && pyFalsy optimal_ip then false else wm0
  if wm then
    .migrate (optimal_ip.getD "") (transferCmd self_ip (optimal_ip.getD ""))
  else .keep self_ip

/-- A whole tick: cost-model decision then downgrade check then
keep/migrate. -/
def tickFromDomains (self_ip : String) (ds : List DomainQ) : TickOutcome :=
  let r := run_once_decision self_ip ds
  tickDecision self_ip r.1 r.2

/-! ## predict_leader.py: migration executor (C6) -/

/-- `scp_to_host`: `subprocess.run(scp_cmd, check=True)` — raises on any
transfer failure (also on a missing local file).  The collaborator's
success/failure is the boolean environment input. -/
def scp_to_host (transfer_ok : Bool) : Except String Unit :=
  if transfer_ok then .ok () else .error "CalledProcessError"

/-- `move_leader_with_timing`: runs the command, *catches*
`CalledProcessError`, and records status `"success"` or `"failed"` in the
timing CSV; it never raises. -/
def move_leader_with_timing (cmd_ok : Bool) : String :=
  if cmd_ok then "success" else "failed"

/-- `check_and_transfer_leader` of `predict_leader.py`, with the two
collaborator outcomes as inputs.  Returns the recorded move-leader status
together with whether `os.remove(local_path)` ran (the local snapshot file
was deleted); a raised exception propagates as `.error`. -/
def check_and_transfer_leader (transfer_ok cmd_ok : Bool) :
    Except String (String × Bool) := do
  let _ ← scp_to_host transfer_ok
  let status := move_leader_with_timing cmd_ok
  -- `os.remove(local_path)` follows unconditionally
  pure (status, true)

/-! ## predict_leader.py: ModelReloader / ReloadWorker (C7)

`ModelReloader` keeps `last_sig` (the signature of the loaded artifacts)
and `last_seen_change_ts` (a float timestamp, `0.0` = unset).  Signatures
are dicts compared only by equality; we embed one as a `String`.  Times
are `time.time()` values, embedded as `ℚ` (always positive in reality;
the theorems carry `0 < t` where the `0.0` sentinel matters). -/

/-- `ModelReloader`'s mutable state: `last_sig`, `last_seen_change_ts`
(`0` = unset, as in the Python sentinel). -/
structure ReloadState where
  lastSig : String
  lastSeenChangeTs : ℚ
deriving DecidableEq, Repr

/-- One poll of `ReloadWorker.run`: `changed_and_stable` (with the current
signature `cur` read at time `now`), and — when it returns `True` — the
successful reload path `fnew := ctor(); holder.set(fnew);
guard.mark_loaded()`, whose `mark_loaded` stores the current signature and
clears the debounce timestamp.  (`mark_loaded` re-reads `_signature()`;
the artifacts are unchanged within the poll, so it reads `cur`.)  Returns
the new state and whether a reload fired. -/
def pollStep (debounce : ℚ) (st : ReloadState) (cur : String) (now : ℚ) :
    ReloadState × Bool :=
  if cur = st.lastSig then (⟨st.lastSig, 0⟩, false)
  else if st.lastSeenChangeTs = 0 then (⟨st.lastSig, now⟩, false)
  else if debounce ≤ now - st.lastSeenChangeTs then (⟨cur, 0⟩, true)
  else (st, false)

/-- Folding `pollStep` over a sequence of `(signature, time)` polls,
counting fired reloads. -/
def runFrom (debounce : ℚ) (acc : ReloadState × Nat)
    (polls : List (String × ℚ)) : ReloadState × Nat :=
  polls.foldl
    (fun a p =>
      let r := pollStep debounce a.1 p.1 p.2
      (r.1, a.2 + if r.2 then 1 else 0))
    acc

/-- A poll trace run from an initial state with zero reloads counted. -/
def runPolls (debounce : ℚ) (st : ReloadState)
    (polls : List (String × ℚ)) : ReloadState × Nat :=
  runFrom debounce (st, 0) polls

/-! ## leader_logger.py: BufferedPredictedLeaderWriter (C8) -/

/-- One CSV row `[timestamp, predicted_leader_ip]`. -/
structure LogRow where
  ts : String
  ip : String
deriving DecidableEq, Repr

/-- The writer's observable state: the in-memory `self.buffer`, the CSV
file (`none` = does not exist; `some rows` = exists, holding the header
plus `rows` data rows), and how many flushes actually wrote (for "a single
flush"). -/
structure LogState where
  buffer : List LogRow
  file : Option (List LogRow)
  flushWrites : Nat
deriving DecidableEq, Repr

/-- A fresh `BufferedPredictedLeaderWriter`: empty buffer, no file yet. -/
def freshLog : LogState := ⟨[], none, 0⟩

/-- `_ensure_file`: create the file with only the header row if absent. -/
def ensure_file (st : LogState) : LogState :=
  match st.file with
  | none => ⟨st.buffer, some [], st.flushWrites⟩
  | some _ => st

/-- `_flush_buffer`: no-op on an empty buffer; else ensure the file exists
and append every buffered row in order, then clear the buffer. -/
def flush_buffer (st : LogState) : LogState :=
  if st.buffer = [] then st
  else
    let st' := ensure_file st
    ⟨[], some (st'.file.getD [] ++ st'.buffer), st'.flushWrites + 1⟩

/-- `record`: append the row to the buffer; flush only when
`will_move`. -/
def record (st : LogState) (row : LogRow) (will_move : Bool) : LogState :=
  if !will_move then ⟨st.buffer ++ [row], st.file, st.flushWrites⟩
  else flush_buffer ⟨st.buffer ++ [row], st.file, st.flushWrites⟩

/-! ## Concrete fixtures

The three-replica fixture of §8 of the spec (read/write rates from the
regression-test sentence, addresses bound to the hard-coded latency
matrix so that A–B = 30, A–C = 40, B–C = 50), an all-infeasible pair, and
a replica whose address is absent from every static map. -/

/-- Fixture replica A (read 10, write 5) at 192.168.0.38. -/
def domA : Domain := ⟨"A", "192.168.0.38", 1, 10, 5⟩

/-- Fixture replica B (read 2, write 1) at 192.168.0.82. -/
def domB : Domain := ⟨"B", "192.168.0.82", 1, 2, 1⟩

/-- Fixture replica C (read 1, write 1) at 192.168.0.223. -/
def domC : Domain := ⟨"C", "192.168.0.223", 1, 1, 1⟩

/-- Two domains of weight 2 each: total weight 4, quorum 3,
`followersNeeded = 2 > 1` other replica — every candidate infeasible. -/
def infX : Domain := ⟨"X", "192.168.0.38", 2, 1, 1⟩

/-- See `infX`. -/
def infY : Domain := ⟨"Y", "192.168.0.82", 2, 1, 1⟩

/-- Fixture replica A for the control-loop (rational-rate) variant. -/
def qdomA : DomainQ := ⟨"A", "192.168.0.38", 1, 10, 5⟩

/-- Fixture replica B for the control-loop variant. -/
def qdomB : DomainQ := ⟨"B", "192.168.0.82", 1, 2, 1⟩

/-- Fixture replica C for the control-loop variant. -/
def qdomC : DomainQ := ⟨"C", "192.168.0.223", 1, 1, 1⟩

/-- A replica whose address 10.0.0.1 is absent from `ip_to_index` and from
`IpToId` (so `10.0.0.1:2379` has no cluster identity). -/
def unknownDom : DomainQ := ⟨"x", "10.0.0.1", 1, 5, 5⟩

/-! ## Helper lemmas -/

/-- Folding an `Int` accumulation is summing the mapped list. -/
theorem foldl_add_sum {α : Type} (g : α → Int) :
    ∀ (ds : List α) (a : Int),
      ds.foldl (fun acc d => acc + g d) a = a + (ds.map g).sum := by
  intro ds
  induction ds with
  | nil => intro a; simp
  | cons d ds ih => intro a; simp [ih, add_assoc]

/-- The read/write accumulating pair-fold of `calculate_total_latency`,
as two sums. -/
theorem foldl_readwrite (lat : String → String → Nat) (L : Domain) :
    ∀ (ds : List Domain) (a b : Int),
      ds.foldl
        (fun (acc : Int × Int) d =>
          (acc.1 + d.read_requests *
            (if d.id = L.id then 0 else (lat L.address d.address : Int)),
           acc.2 + d.write_requests)) (a, b)
      = (a + (ds.map (fun d => d.read_requests * spec_dLi lat L d)).sum,
         b + (ds.map (·.write_requests)).sum) := by
  intro ds
  induction ds with
  | nil => intro a b; simp
  | cons d ds ih =>
      intro a b
      simp only [List.foldl_cons, List.map_cons, List.sum_cons]
      rw [ih]
      simp only [spec_dLi, Prod.mk.injEq]
      constructor <;> ring

/-- The standalone cost model's loop computes exactly the spec's formula
`T(L) = Σ_i readRate_i · d(L,i) + W(L) · Σ_i writeRate_i`. -/
theorem total_eq_spec (lat : String → String → Nat) (L : Domain)
    (ds : List Domain) (w : Nat) :
    calculate_total_latency lat L ds w = specTotalCost lat L ds w := by
  unfold calculate_total_latency specTotalCost
  rw [foldl_readwrite lat L ds 0 0]
  simp

/-- The control-loop cost variant is the point-to-point sum
`Σ_i int((readRate_i + writeRate_i) · d(L,i))` — no commit-latency
component at all. -/
theorem totalA_eq_ptp (lat : String → String → Nat) (L : DomainQ)
    (ds : List DomainQ) :
    calculate_total_latency_A lat L ds = specPointToPointCost lat L ds := by
  unfold calculate_total_latency_A specPointToPointCost
  rw [foldl_add_sum]
  simp

/-- Permuting the domain list permutes the candidate's peer-latency
list. -/
theorem othersLatencies_perm (lat : String → String → Nat) (L : Domain)
    {ds₁ ds₂ : List Domain} (h : ds₁.Perm ds₂) :
    (othersLatencies lat L ds₁).Perm (othersLatencies lat L ds₂) :=
  (h.filter _).map _

/-- Sorting identifies permuted latency lists. -/
theorem sort_othersLatencies_eq (lat : String → String → Nat) (L : Domain)
    {ds₁ ds₂ : List Domain} (h : ds₁.Perm ds₂) :
    (othersLatencies lat L ds₁).insertionSort (· ≤ ·)
      = (othersLatencies lat L ds₂).insertionSort (· ≤ ·) :=
  List.eq_of_perm_of_sorted
    (((List.perm_insertionSort _ _).trans (othersLatencies_perm lat L h)).trans
      (List.perm_insertionSort _ _).symm)
    (List.sorted_insertionSort _ _) (List.sorted_insertionSort _ _)

/-- `W(L)` is invariant under permutation of the domain list. -/
theorem commit_perm (lat : String → String → Nat) (L : Domain)
    {ds₁ ds₂ : List Domain} (h : ds₁.Perm ds₂) (q : Nat) :
    calculate_commit_latency lat L ds₁ q
      = calculate_commit_latency lat L ds₂ q := by
  unfold calculate_commit_latency
  rw [sort_othersLatencies_eq lat L h]

/-- `T(L)` is invariant under permutation of the domain list. -/
theorem total_perm (lat : String → String → Nat) (L : Domain)
    {ds₁ ds₂ : List Domain} (h : ds₁.Perm ds₂) (w : Nat) :
    calculate_total_latency lat L ds₁ w
      = calculate_total_latency lat L ds₂ w := by
  rw [total_eq_spec, total_eq_spec]
  unfold specTotalCost
  rw [(h.map _).sum_eq, (h.map _).sum_eq]

/-- The derived quorum size is invariant under permutation. -/
theorem quorumSize_perm {ds₁ ds₂ : List Domain} (h : ds₁.Perm ds₂) :
    quorumSize ds₁ = quorumSize ds₂ := by
  unfold quorumSize
  rw [(h.map _).sum_eq]

/-- Whatever the candidate scan of `find_optimal_leader` returns was a
feasible candidate scored with its own commit latency. -/
theorem find_core_sound (lat : String → String → Nat) (ds : List Domain)
    (q : Nat) :
    ∀ (rest : List Domain) (acc : Option (Domain × Int)),
      (∀ b c, acc = some (b, c) →
        ∃ w, calculate_commit_latency lat b ds q = some w ∧
          c = calculate_total_latency lat b ds w) →
      ∀ b c, rest.foldl (findStep lat ds q) acc = some (b, c) →
        ∃ w, calculate_commit_latency lat b ds q = some w ∧
          c = calculate_total_latency lat b ds w := by
  intro rest
  induction rest with
  | nil => intro acc hacc b c heq; exact hacc b c heq
  | cons d rest ih =>
      intro acc hacc b c
      rw [List.foldl_cons]
      refine ih _ ?_ b c
      intro b' c' hstep
      unfold findStep at hstep
      cases hcd : calculate_commit_latency lat d ds q with
      | none => rw [hcd] at hstep; exact hacc b' c' hstep
      | some w =>
          rw [hcd] at hstep
          cases hacc' : acc with
          | none =>
              rw [hacc'] at hstep
              simp only [Option.some.injEq, Prod.mk.injEq] at hstep
              exact ⟨w, by rw [← hstep.1]; exact hcd, by rw [← hstep.1, ← hstep.2]⟩
          | some p =>
              rw [hacc'] at hstep
              by_cases hlt : calculate_total_latency lat d ds w < p.2
              · simp only [hlt, if_pos] at hstep
                simp only [Option.some.injEq, Prod.mk.injEq] at hstep
                exact ⟨w, by rw [← hstep.1]; exact hcd, by rw [← hstep.1, ← hstep.2]⟩
              · simp only [hlt, if_neg, not_false_iff] at hstep
                exact hacc b' c' (by rw [hacc', ← hstep])

/-- `findStep` skips an infeasible candidate. -/
theorem findStep_commit_none {lat : String → String → Nat}
    {ds : List Domain} {q : Nat} {cand : Domain}
    (acc : Option (Domain × Int))
    (h : calculate_commit_latency lat cand ds q = none) :
    findStep lat ds q acc cand = acc := by
  simp [findStep, h]

/-- `findStep` adopts a feasible candidate when none is held yet. -/
theorem findStep_some_none {lat : String → String → Nat}
    {ds : List Domain} {q : Nat} {cand : Domain} {w : Nat}
    (h : calculate_commit_latency lat cand ds q = some w) :
    findStep lat ds q none cand
      = some (cand, calculate_total_latency lat cand ds w) := by
  simp [findStep, h]

/-- `findStep` replaces the held candidate exactly on a strict
improvement. -/
theorem findStep_some_some {lat : String → String → Nat}
    {ds : List Domain} {q : Nat} {cand b : Domain} {c : Int} {w : Nat}
    (h : calculate_commit_latency lat cand ds q = some w) :
    findStep lat ds q (some (b, c)) cand
      = if calculate_total_latency lat cand ds w < c
        then some (cand, calculate_total_latency lat cand ds w)
        else some (b, c) := by
  simp [findStep, h]

/-- The candidate scan selects the strict minimizer: once the strict
minimizer `L` has been folded in, it survives every later candidate; until
then the accumulator is empty or holds some feasible non-`L` candidate
with its own score. -/
theorem find_core_unique_min (lat : String → String → Nat)
    (ds : List Domain) (L : Domain) (wL : Nat)
    (hfeas : calculate_commit_latency lat L ds (quorumSize ds) = some wL)
    (hmin : ∀ d ∈ ds, d ≠ L →
      ∀ w, calculate_commit_latency lat d ds (quorumSize ds) = some w →
        calculate_total_latency lat L ds wL
          < calculate_total_latency lat d ds w) :
    ∀ (rest : List Domain) (acc : Option (Domain × Int)),
      (∀ d ∈ rest, d ∈ ds) →
      (acc = some (L, calculate_total_latency lat L ds wL) ∨
        (L ∈ rest ∧ (acc = none ∨ ∃ b cb w, acc = some (b, cb) ∧ b ∈ ds ∧
          b ≠ L ∧ calculate_commit_latency lat b ds (quorumSize ds) = some w ∧
          cb = calculate_total_latency lat b ds w))) →
      rest.foldl (findStep lat ds (quorumSize ds)) acc
        = some (L, calculate_total_latency lat L ds wL) := by
  intro rest
  induction rest with
  | nil =>
      intro acc _ hinv
      rcases hinv with hacc | ⟨hL, _⟩
      · simpa using hacc
      · exact absurd hL (List.not_mem_nil L)
  | cons d rest ih =>
      intro acc hsub hinv
      rw [List.foldl_cons]
      refine ih _ (fun x hx => hsub x (List.mem_cons_of_mem d hx)) ?_
      rcases hinv with hacc | ⟨hLmem, hP⟩
      · -- the minimizer is already in the accumulator and survives `d`
        left
        subst hacc
        cases hcd : calculate_commit_latency lat d ds (quorumSize ds) with
        | none => rw [findStep_commit_none _ hcd]
        | some w =>
            rw [findStep_some_some hcd]
            by_cases hdL : d = L
            · subst hdL
              rw [hfeas] at hcd
              cases hcd
              simp
            · have hlt := hmin d (hsub d (List.mem_cons_self d rest)) hdL w hcd
              rw [if_neg (not_lt.mpr (le_of_lt hlt))]
      · by_cases hdL : d = L
        · -- `d` is the minimizer: it takes over the accumulator
          left
          subst hdL
          rcases hP with hnone | ⟨b, cb, w, hacc, hbds, hbL, hcb, hcbeq⟩
          · rw [hnone, findStep_some_none hfeas]
          · rw [hacc, findStep_some_some hfeas]
            have hlt := hmin b hbds hbL w hcb
            rw [← hcbeq] at hlt
            rw [if_pos hlt]
        · -- a non-minimizer: the invariant survives
          right
          refine ⟨List.mem_of_ne_of_mem (fun h => hdL h.symm) hLmem, ?_⟩
          cases hcd : calculate_commit_latency lat d ds (quorumSize ds) with
          | none => rw [findStep_commit_none _ hcd]; exact hP
          | some w =>
              rcases hP with hnone | ⟨b, cb, w', hacc, hbds, hbL, hcb, hcbeq⟩
              · rw [hnone, findStep_some_none hcd]
                exact Or.inr ⟨d, _, w, rfl,
                  hsub d (List.mem_cons_self d rest), hdL, hcd, rfl⟩
              · rw [hacc, findStep_some_some hcd]
                by_cases hlt :
                    calculate_total_latency lat d ds w < cb
                · rw [if_pos hlt]
                  exact Or.inr ⟨d, _, w, rfl,
                    hsub d (List.mem_cons_self d rest), hdL, hcd, rfl⟩
                · rw [if_neg hlt]
                  exact Or.inr ⟨b, cb, w', rfl, hbds, hbL, hcb, hcbeq⟩

/-- `find_optimal_leader` returns the strict minimizer together with its
score. -/
theorem find_optimal_unique_min (lat : String → String → Nat)
    (ds : List Domain) (L : Domain) (wL : Nat) (hL : L ∈ ds)
    (hfeas : calculate_commit_latency lat L ds (quorumSize ds) = some wL)
    (hmin : ∀ d ∈ ds, d ≠ L →
      ∀ w, calculate_commit_latency lat d ds (quorumSize ds) = some w →
        calculate_total_latency lat L ds wL
          < calculate_total_latency lat d ds w) :
    find_optimal_leader lat ds
      = .tuple (some L) (.num (calculate_total_latency lat L ds wL)) := by
  have hne : ds ≠ [] := by intro h; rw [h] at hL; exact List.not_mem_nil L hL
  unfold find_optimal_leader find_optimal_core
  rw [if_neg hne,
    find_core_unique_min lat ds L wL hfeas hmin ds none (fun d h => h)
      (Or.inr ⟨hL, Or.inl rfl⟩)]

/-- Folding keep-records only appends to the in-memory buffer: the file
and the flush count are untouched. -/
theorem record_keep_foldl :
    ∀ (rows b : List LogRow) (f : Option (List LogRow)) (c : Nat),
      rows.foldl (fun s r => record s r false) ⟨b, f, c⟩ = ⟨b ++ rows, f, c⟩ := by
  intro rows
  induction rows with
  | nil => intro b f c; simp
  | cons r rows ih =>
      intro b f c
      rw [List.foldl_cons]
      show rows.foldl (fun s r => record s r false) (record ⟨b, f, c⟩ r false)
        = _
      rw [show record ⟨b, f, c⟩ r false = ⟨b ++ [r], f, c⟩ from rfl, ih]
      simp

/-- Whatever leader `find_optimal_leader` selects was feasible: its commit
latency is finite. -/
theorem find_optimal_feasible (lat : String → String → Nat)
    (ds : List Domain) (b : Domain) (c : PyCost)
    (h : find_optimal_leader lat ds = .tuple (some b) c) :
    ∃ w, calculate_commit_latency lat b ds (quorumSize ds) = some w := by
  unfold find_optimal_leader at h
  by_cases hne : ds = []
  · rw [if_pos hne] at h
    simp at h
  · rw [if_neg hne] at h
    cases hcore : find_optimal_core lat ds with
    | none => rw [hcore] at h; simp at h
    | some p =>
        obtain ⟨b', c'⟩ := p
        rw [hcore] at h
        simp only [FindReturn.tuple.injEq, Option.some.injEq] at h
        obtain ⟨hb, _⟩ := h
        subst hb
        unfold find_optimal_core at hcore
        obtain ⟨w, hw, _⟩ :=
          find_core_sound lat ds (quorumSize ds) ds none
            (by intro b c hbc; simp at hbc) _ _ hcore
        exact ⟨w, hw⟩

/-! ## Claim theorems -/

/-- C1 (counterexample): on the §8 fixture, the control loop's per-tick
cost for candidate A is `(10+5)·0 + (2+1)·30 + (1+1)·40 = 170`, while the
claimed formula `Σ readRate·d + W(A)·Σ writeRate` (with the quorum-gated
`W(A) = 30` the quorum model computes on the same replicas) gives `310`:
the per-tick Cost Model call does not include the quorum-gated write
component. -/
theorem c1_counterexample :
    calculate_total_latency_A get_latency qdomA [qdomA, qdomB, qdomC] = 170
      ∧ calculate_commit_latency get_latency domA [domA, domB, domC]
          (quorumSize [domA, domB, domC]) = some 30
      ∧ specTotalCost get_latency domA [domA, domB, domC] 30 = 310
      ∧ (170 : Int) ≠ 310 :=
  ⟨by with_unfolding_all decide, by decide, by decide, by decide⟩

/-- C1 (amended): the standalone calculator's cost is exactly
`T(L) = Σ_i readRate_i · d(L,i) + W(L) · Σ_i writeRate_i` with
`d(L,L) = 0`; the control loop's per-tick Cost Model instead evaluates the
point-to-point cost `Σ_i int((readRate_i + writeRate_i) · d(L,i))`, with
no quorum-gated write component. -/
theorem c1_cost_formulas :
    (∀ (lat : String → String → Nat) (L : Domain) (ds : List Domain)
        (w : Nat),
      calculate_total_latency lat L ds w = specTotalCost lat L ds w)
    ∧ (∀ (lat : String → String → Nat) (L : DomainQ) (ds : List DomainQ),
      calculate_total_latency_A lat L ds = specPointToPointCost lat L ds) :=
  ⟨total_eq_spec, totalA_eq_ptp⟩

/-- C3 (counterexample): on the §8 fixture the code computes
`W(A) = 30` but `T(A) = 10·0 + 2·30 + 1·40 + 30·(5+1+1) = 310`, not the
`320` the claim states (the claim's `1·50` uses the B–C latency in place
of `d(A,C) = 40`). -/
theorem c3_counterexample :
    calculate_commit_latency get_latency domA [domA, domB, domC] 2 = some 30
      ∧ calculate_total_latency get_latency domA [domA, domB, domC] 30 = 310
      ∧ (310 : Int) ≠ 320 := by
  decide

/-- C3 (amended): on the fixture (quorum 2, followersNeeded 1) the code
computes `W(A) = min(30,40) = 30`, `T(A) = 310`, `W(B) = 30`,
`T(B) = 560`, `W(C) = 40`, `T(C) = 780`, and deterministically selects A,
the candidate with minimal `T`, at cost 310. -/
theorem c3_fixture_results :
    quorumSize [domA, domB, domC] = 2
      ∧ calculate_commit_latency get_latency domA [domA, domB, domC] 2
          = some 30
      ∧ calculate_total_latency get_latency domA [domA, domB, domC] 30 = 310
      ∧ calculate_commit_latency get_latency domB [domA, domB, domC] 2
          = some 30
      ∧ calculate_total_latency get_latency domB [domA, domB, domC] 30 = 560
      ∧ calculate_commit_latency get_latency domC [domA, domB, domC] 2
          = some 40
      ∧ calculate_total_latency get_latency domC [domA, domB, domC] 40 = 780
      ∧ find_optimal_leader get_latency [domA, domB, domC]
          = .tuple (some domA) (.num 310) := by
  decide

/-- C4 (code evaluated at the failing inputs): with two weight-2 domains
every candidate is infeasible (quorum 3, followersNeeded 2 > 1), and
`find_optimal_leader` returns `(None, (None, None))` — the conditional
expression in `return optimal_leader, min_total_latency if optimal_leader
else (None, None)` binds only the second tuple slot — while the empty
replica set returns the bare `None` of the early `return None`, not the
pair `(None, None)` the spec promises. -/
theorem c4_return_shape :
    calculate_commit_latency get_latency infX [infX, infY]
        (quorumSize [infX, infY]) = none
      ∧ calculate_commit_latency get_latency infY [infX, infY]
          (quorumSize [infX, infY]) = none
      ∧ find_optimal_leader get_latency [infX, infY] = .tuple none .nonePair
      ∧ find_optimal_leader get_latency [] = .bareNone := by
  decide

/-- C8: N keep decisions followed by one migrate decision on a fresh
decision log leave the persisted file nonexistent (zero data rows) and the
buffer holding the N rows in order until the migrate record, whose single
flush persists exactly the N+1 rows in original chronological order and
empties the buffer. -/
theorem c8_buffered_single_flush (keepRows : List LogRow) (mrow : LogRow) :
    keepRows.foldl (fun s r => record s r false) freshLog
        = ⟨keepRows, none, 0⟩
      ∧ record (keepRows.foldl (fun s r => record s r false) freshLog)
          mrow true
        = ⟨[], some (keepRows ++ [mrow]), 1⟩ := by
  have h1 : keepRows.foldl (fun s r => record s r false) freshLog
      = ⟨keepRows, none, 0⟩ := by
    have := record_keep_foldl keepRows [] none 0
    simpa [freshLog] using this
  refine ⟨h1, ?_⟩
  rw [h1]
  show flush_buffer ⟨keepRows ++ [mrow], none, 0⟩ = _
  unfold flush_buffer ensure_file
  simp

/-- C2: for every candidate L in a non-empty replica set, with
`followersNeeded = quorumSize - 1`: if `followersNeeded` exceeds the
number of other replicas, L's commit latency is infinite and L is never
the selected optimum; if `followersNeeded ≤ 0`, `W(L) = 0`; otherwise
`W(L)` is the `followersNeeded`-th smallest latency from L to the other
replicas — the `(quorumSize - 2)`-indexed entry of a sorted permutation
of the peer-latency list. -/
theorem c2_commit_latency (lat : String → String → Nat) (ds : List Domain)
    (hne : ds ≠ []) (L : Domain) (hL : L ∈ ds) :
    (((quorumSize ds : Int) - 1 > ((othersLatencies lat L ds).length : Int)) →
      calculate_commit_latency lat L ds (quorumSize ds) = none
        ∧ ∀ b c, find_optimal_leader lat ds = .tuple (some b) c → b ≠ L)
    ∧ (((quorumSize ds : Int) - 1 ≤ 0) →
      calculate_commit_latency lat L ds (quorumSize ds) = some 0)
    ∧ (∀ k : Nat, quorumSize ds = k + 2 →
        k + 1 ≤ (othersLatencies lat L ds).length →
        ∃ l' : List Nat, l'.Sorted (· ≤ ·) ∧ l'.Perm (othersLatencies lat L ds) ∧
          calculate_commit_latency lat L ds (quorumSize ds)
            = some (l'.getD k 0)) := by
  refine ⟨?_, ?_, ?_⟩
  · intro h
    have hnone : calculate_commit_latency lat L ds (quorumSize ds) = none := by
      simp only [calculate_commit_latency]
      rw [if_pos (by rw [List.length_insertionSort]; exact h)]
    refine ⟨hnone, ?_⟩
    intro b c hfind hbL
    obtain ⟨w, hw⟩ := find_optimal_feasible lat ds b c hfind
    rw [hbL, hnone] at hw
    cases hw
  · intro h
    simp only [calculate_commit_latency]
    rw [if_neg (by
        rw [List.length_insertionSort]
        exact not_lt.mpr (le_trans h (Int.ofNat_nonneg _))),
      if_pos h]
  · intro k hq hk
    refine ⟨(othersLatencies lat L ds).insertionSort (· ≤ ·),
      List.sorted_insertionSort _ _, List.perm_insertionSort _ _, ?_⟩
    simp only [calculate_commit_latency, hq]
    rw [if_neg (by rw [List.length_insertionSort]; push_cast; omega),
      if_neg (by push_cast; omega)]
    have h3 : ((((k + 2 : Nat) : Int) - 1) - 1).toNat = k := by
      push_cast; omega
    rw [h3]

/-- C9: each candidate's commit latency `W(L)` and total cost `T(L)` are
invariant under any permutation of the replica list, and when the
minimal-cost candidate is the unique strict minimizer the selected leader
and its cost are unchanged by permutation. -/
theorem c9_permutation_invariance (lat : String → String → Nat)
    (ds₁ ds₂ : List Domain) (hperm : ds₁.Perm ds₂) :
    (∀ (L : Domain) (q : Nat),
      calculate_commit_latency lat L ds₁ q
        = calculate_commit_latency lat L ds₂ q)
    ∧ (∀ (L : Domain) (w : Nat),
      calculate_total_latency lat L ds₁ w
        = calculate_total_latency lat L ds₂ w)
    ∧ (∀ (L : Domain) (wL : Nat), L ∈ ds₁ →
        calculate_commit_latency lat L ds₁ (quorumSize ds₁) = some wL →
        (∀ d ∈ ds₁, d ≠ L → ∀ w,
          calculate_commit_latency lat d ds₁ (quorumSize ds₁) = some w →
          calculate_total_latency lat L ds₁ wL
            < calculate_total_latency lat d ds₁ w) →
        find_optimal_leader lat ds₁
            = .tuple (some L) (.num (calculate_total_latency lat L ds₁ wL))
          ∧ find_optimal_leader lat ds₂
            = .tuple (some L) (.num (calculate_total_latency lat L ds₁ wL))) := by
  refine ⟨fun L q => commit_perm lat L hperm q,
    fun L w => total_perm lat L hperm w, ?_⟩
  intro L wL hL hfeas hmin
  have hq := quorumSize_perm hperm
  have hL₂ : L ∈ ds₂ := hperm.subset hL
  have hfeas₂ :
      calculate_commit_latency lat L ds₂ (quorumSize ds₂) = some wL := by
    rw [← hq, ← commit_perm lat L hperm]
    exact hfeas
  have hmin₂ : ∀ d ∈ ds₂, d ≠ L → ∀ w,
      calculate_commit_latency lat d ds₂ (quorumSize ds₂) = some w →
      calculate_total_latency lat L ds₂ wL
        < calculate_total_latency lat d ds₂ w := by
    intro d hd hdL w hw
    rw [← total_perm lat L hperm, ← total_perm lat d hperm]
    exact hmin d (hperm.symm.subset hd) hdL w
      (by rw [commit_perm lat d hperm, hq]; exact hw)
  refine ⟨find_optimal_unique_min lat ds₁ L wL hL hfeas hmin, ?_⟩
  rw [find_optimal_unique_min lat ds₂ L wL hL₂ hfeas₂ hmin₂,
    total_perm lat L hperm]

/-- Append on strings cancels on the right. -/
theorem string_append_right_cancel {a b c : String} (h : a ++ c = b ++ c) :
    a = b := by
  have hd : a.data = b.data :=
    List.append_cancel_right
      (by rw [← String.data_append, ← String.data_append, h])
  exact String.ext hd

/-- Append on strings cancels on the left. -/
theorem string_append_left_cancel {a b c : String} (h : c ++ a = c ++ b) :
    a = b := by
  have hd : a.data = b.data :=
    List.append_cancel_left
      (by rw [← String.data_append, ← String.data_append, h])
  exact String.ext hd

/-- C5 (counterexample): with the single replica at 10.0.0.1 — an address
absent from the identity map — the cost model selects 10.0.0.1, which is
not the local 192.168.0.38, and the tick is *not* downgraded to keep: it
enters the migration path and issues the `etcdctl move-leader` command
with the literal member identity `"unknown"`. -/
theorem c5_counterexample :
    IpToId "10.0.0.1:2379" = none
      ∧ unknownDom.address ≠ "192.168.0.38"
      ∧ tickFromDomains "192.168.0.38" [unknownDom]
        = .migrate "10.0.0.1"
            ["/etcd/etcd-release-3.4/bin/etcdctl",
             "--endpoints=192.168.0.38:2379", "move-leader", "unknown"] := by
  with_unfolding_all decide

/-- C5 (amended): the only per-tick downgrade to keep is for an empty
(`None` or `""`) optimal address; a non-empty optimal address different
from the local one always enters the migration path, and when its
`:2379` endpoint is absent from the identity map, the transfer command is
issued with `"unknown"` as the member identity instead of being
suppressed. -/
theorem c5_downgrade_only_on_empty (self_ip oip : String)
    (h : pyFalsy (some oip) = false) :
    tickDecision self_ip false (some oip)
        = .migrate oip (transferCmd self_ip oip)
      ∧ (IpToId (oip ++ ":2379") = none →
        (transferCmd self_ip oip).getD 3 "" = "unknown") := by
  constructor
  · simp [tickDecision, h]
  · intro hnone
    simp [transferCmd, cmdIdentity, hnone]

/-- Witness for C5's amended theorem at 10.0.0.1 (not in the identity
map) against local address 192.168.0.38. -/
theorem c5_downgrade_witness :
    pyFalsy (some "10.0.0.1") = false
      ∧ (tickDecision "192.168.0.38" false (some "10.0.0.1")
          = .migrate "10.0.0.1" (transferCmd "192.168.0.38" "10.0.0.1")
        ∧ (IpToId ("10.0.0.1" ++ ":2379") = none →
          (transferCmd "192.168.0.38" "10.0.0.1").getD 3 "" = "unknown")) :=
  ⟨by decide, c5_downgrade_only_on_empty "192.168.0.38" "10.0.0.1" (by decide)⟩

/-- C6 (counterexample): with the file transfer succeeding and the
leadership-transfer command failing, `check_and_transfer_leader` records
status `"failed"` — the `CalledProcessError` is swallowed inside
`move_leader_with_timing` — and still deletes the local snapshot file
(the second component `true`). -/
theorem c6_counterexample :
    check_and_transfer_leader true false = .ok ("failed", true) := by
  rfl

/-- C6 (amended): the local snapshot file is deleted exactly when the file
transfer (step 1) succeeds, regardless of the leadership-transfer
command's outcome: a transfer failure raises and aborts the attempt with
the file in place, while a command failure is caught, recorded as
`"failed"`, and does not prevent the deletion. -/
theorem c6_delete_iff_transfer_ok (transfer_ok cmd_ok : Bool) :
    ((∃ s, check_and_transfer_leader transfer_ok cmd_ok = .ok (s, true))
        ↔ transfer_ok = true)
      ∧ check_and_transfer_leader false cmd_ok = .error "CalledProcessError"
      ∧ check_and_transfer_leader true cmd_ok
        = .ok (move_leader_with_timing cmd_ok, true) := by
  cases transfer_ok <;> cases cmd_ok <;>
    simp [check_and_transfer_leader, scp_to_host, move_leader_with_timing]

/-- C10: in every migration the control loop performs, the
leadership-transfer command's `--endpoints` argument is the local
machine's own detected IP (what `get_current_leader_ip` returns) suffixed
with `:2379`; whenever the actual leader sits at any other address, the
command is addressed to a non-leader endpoint. -/
theorem c10_transfer_endpoint (local_ip optimal_ip : String) :
    (transferCmd (get_current_leader_ip local_ip) optimal_ip).getD 1 ""
        = "--endpoints=" ++ (local_ip ++ ":2379")
      ∧ ∀ leader_ip : String, local_ip ≠ leader_ip →
        (transferCmd (get_current_leader_ip local_ip) optimal_ip).getD 1 ""
          ≠ "--endpoints=" ++ (leader_ip ++ ":2379") := by
  constructor
  · rfl
  · intro leader_ip hne heq
    have heq' : "--endpoints=" ++ (local_ip ++ ":2379")
        = "--endpoints=" ++ (leader_ip ++ ":2379") := heq
    exact hne
      (string_append_right_cancel (string_append_left_cancel heq'))

/-- Witness for C10 with local IP 192.168.0.38 and an actual leader at
192.168.0.223. -/
theorem c10_witness :
    (transferCmd (get_current_leader_ip "192.168.0.38")
          "192.168.0.82").getD 1 ""
        = "--endpoints=" ++ ("192.168.0.38" ++ ":2379")
      ∧ (transferCmd (get_current_leader_ip "192.168.0.38")
          "192.168.0.82").getD 1 ""
        ≠ "--endpoints=" ++ ("192.168.0.223" ++ ":2379") :=
  ⟨(c10_transfer_endpoint "192.168.0.38" "192.168.0.82").1,
   (c10_transfer_endpoint "192.168.0.38" "192.168.0.82").2 "192.168.0.223"
     (by decide)⟩

/-- Folding polls distributes over list append. -/
theorem runFrom_append (d : ℚ) (acc : ReloadState × Nat)
    (xs ys : List (String × ℚ)) :
    runFrom d acc (xs ++ ys) = runFrom d (runFrom d acc xs) ys := by
  unfold runFrom
  rw [List.foldl_append]

/-- Unfolding one poll. -/
theorem runFrom_cons (d : ℚ) (acc : ReloadState × Nat) (p : String × ℚ)
    (ps : List (String × ℚ)) :
    runFrom d acc (p :: ps)
      = runFrom d
          ((pollStep d acc.1 p.1 p.2).1,
            acc.2 + if (pollStep d acc.1 p.1 p.2).2 then 1 else 0) ps :=
  rfl

/-- A poll that sees the loaded signature clears the pending timestamp and
fires nothing. -/
theorem pollStep_same (d : ℚ) (s : String) (x now : ℚ) :
    pollStep d ⟨s, x⟩ s now = (⟨s, 0⟩, false) := by
  simp [pollStep]

/-- Any run of polls showing the loaded signature fires nothing and keeps
the signature. -/
theorem runFrom_same (d : ℚ) (s : String) :
    ∀ (ts : List ℚ) (x : ℚ) (n : Nat),
      runFrom d (⟨s, x⟩, n) (ts.map fun t => (s, t))
        = (⟨s, if ts = [] then x else 0⟩, n) := by
  intro ts
  induction ts with
  | nil => intro x n; simp [runFrom]
  | cons t ts ih =>
      intro x n
      rw [List.map_cons, runFrom_cons]
      simp only [pollStep_same]
      simpa using ih 0 n

/-- First sighting of a differing signature only records the timestamp. -/
theorem pollStep_first_diff (d : ℚ) (s0 s1 : String) (t0 : ℚ)
    (h : s1 ≠ s0) : pollStep d ⟨s0, 0⟩ s1 t0 = (⟨s0, t0⟩, false) := by
  simp [pollStep, h]

/-- A differing signature still inside the debounce window changes
nothing. -/
theorem pollStep_within (d : ℚ) (s0 s1 : String) (t0 m : ℚ) (h : s1 ≠ s0)
    (ht0 : t0 ≠ 0) (hm : m - t0 < d) :
    pollStep d ⟨s0, t0⟩ s1 m = (⟨s0, t0⟩, false) := by
  simp [pollStep, h, ht0, not_le.mpr hm]

/-- A differing signature past the debounce window fires the reload and
records the new signature as loaded. -/
theorem pollStep_fire (d : ℚ) (s0 s1 : String) (t0 tr : ℚ) (h : s1 ≠ s0)
    (ht0 : t0 ≠ 0) (htr : d ≤ tr - t0) :
    pollStep d ⟨s0, t0⟩ s1 tr = (⟨s1, 0⟩, true) := by
  simp [pollStep, h, ht0, htr]

/-- A run of differing polls wholly inside the debounce window fires
nothing. -/
theorem runFrom_within (d : ℚ) (s0 s1 : String) (t0 : ℚ) (h : s1 ≠ s0)
    (ht0 : t0 ≠ 0) :
    ∀ (mid : List ℚ) (n : Nat), (∀ m ∈ mid, m - t0 < d) →
      runFrom d (⟨s0, t0⟩, n) (mid.map fun t => (s1, t)) = (⟨s0, t0⟩, n) := by
  intro mid
  induction mid with
  | nil => intro n _; simp [runFrom]
  | cons m mid ih =>
      intro n hmid
      rw [List.map_cons, runFrom_cons]
      simp only [pollStep_within d s0 s1 t0 m h ht0
        (hmid m (List.mem_cons_self m mid))]
      simpa using ih n (fun x hx => hmid x (List.mem_cons_of_mem m hx))

/-- C7: a poll trace whose signature differs from the loaded one starting
at time `t0` and is then held constant, with a poll at `tr ≥ t0 + d`,
triggers exactly one reload, after which the new signature is loaded and
the pending timestamp cleared; a trace whose signature reverts to the
loaded one with every differing poll still inside the debounce window
triggers zero reloads and leaves the loaded signature unchanged. -/
theorem c7_debounce_scenarios (d t0 tr : ℚ) (s0 s1 : String)
    (pre mid post post2 : List ℚ)
    (hs : s1 ≠ s0) (ht0 : 0 < t0)
    (hmid : ∀ m ∈ mid, m - t0 < d) (htr : d ≤ tr - t0) :
    runPolls d ⟨s0, 0⟩
        ((pre.map fun t => (s0, t)) ++ (s1, t0) ::
          ((mid.map fun t => (s1, t)) ++ (s1, tr) ::
            (post.map fun t => (s1, t))))
      = (⟨s1, 0⟩, 1)
    ∧ (runPolls d ⟨s0, 0⟩
          ((pre.map fun t => (s0, t)) ++ (s1, t0) ::
            ((mid.map fun t => (s1, t)) ++ (post2.map fun t => (s0, t))))).2
        = 0
    ∧ (runPolls d ⟨s0, 0⟩
          ((pre.map fun t => (s0, t)) ++ (s1, t0) ::
            ((mid.map fun t => (s1, t)) ++ (post2.map fun t => (s0, t))))).1.lastSig
        = s0 := by
  have ht0' : t0 ≠ 0 := ne_of_gt ht0
  have hpre : runFrom d (⟨s0, 0⟩, 0) (pre.map fun t => (s0, t))
      = (⟨s0, 0⟩, 0) := by
    rw [runFrom_same]
    simp
  have hfirst : ∀ rest, runFrom d (⟨s0, 0⟩, 0) ((s1, t0) :: rest)
      = runFrom d (⟨s0, t0⟩, 0) rest := by
    intro rest
    rw [runFrom_cons]
    simp [pollStep_first_diff d s0 s1 t0 hs]
  constructor
  · unfold runPolls
    rw [runFrom_append, hpre, hfirst, runFrom_append,
      runFrom_within d s0 s1 t0 hs ht0' mid 0 hmid, runFrom_cons,
      pollStep_fire d s0 s1 t0 tr hs ht0' htr]
    simpa using runFrom_same d s1 post 0 1
  · have hrun : runPolls d ⟨s0, 0⟩
        ((pre.map fun t => (s0, t)) ++ (s1, t0) ::
          ((mid.map fun t => (s1, t)) ++ (post2.map fun t => (s0, t))))
        = (⟨s0, if post2 = [] then t0 else 0⟩, 0) := by
      unfold runPolls
      rw [runFrom_append, hpre, hfirst, runFrom_append,
        runFrom_within d s0 s1 t0 hs ht0' mid 0 hmid, runFrom_same]
    rw [hrun]
    exact ⟨rfl, rfl⟩

/-- Witness for C7: debounce 5, loaded signature "a", new signature "b"
first seen at t = 100, held through t = 103 and t = 106 ≥ 105 — exactly
one reload; the reverting trace "b" at 100, 103 then back to "a" —
zero reloads. -/
theorem c7_witness :
    runPolls 5 ⟨"a", 0⟩
        [("a", 50), ("b", 100), ("b", 103), ("b", 106), ("b", 120)]
      = (⟨"b", 0⟩, 1)
    ∧ (runPolls 5 ⟨"a", 0⟩
          [("a", 50), ("b", 100), ("b", 103), ("a", 110)]).2 = 0
    ∧ (runPolls 5 ⟨"a", 0⟩
          [("a", 50), ("b", 100), ("b", 103), ("a", 110)]).1.lastSig
        = "a" := by
  have h := c7_debounce_scenarios 5 100 106 "a" "b" [50] [103] [120] [110]
    (by decide) (by norm_num) (by
      intro m hm
      simp only [List.mem_singleton] at hm
      rw [hm]
      norm_num) (by norm_num)
  simpa using h

/-- Witness for C2: the infeasible pair (quorum 3, 1 other) hits the skip
branch; a singleton replica set (quorum 1) gets `W = 0`; the §8 fixture
(quorum 2) gets the 1st-smallest peer latency. -/
theorem c2_witness :
    (calculate_commit_latency get_latency infX [infX, infY]
          (quorumSize [infX, infY]) = none
      ∧ ∀ b c, find_optimal_leader get_latency [infX, infY]
          = .tuple (some b) c → b ≠ infX)
    ∧ calculate_commit_latency get_latency domA [domA]
        (quorumSize [domA]) = some 0
    ∧ (∃ l' : List Nat, l'.Sorted (· ≤ ·)
        ∧ l'.Perm (othersLatencies get_latency domA [domA, domB, domC])
        ∧ calculate_commit_latency get_latency domA [domA, domB, domC]
            (quorumSize [domA, domB, domC]) = some (l'.getD 0 0)) :=
  ⟨(c2_commit_latency get_latency [infX, infY] (by decide) infX
      (by decide)).1 (by decide),
   (c2_commit_latency get_latency [domA] (by decide) domA
      (by decide)).2.1 (by decide),
   (c2_commit_latency get_latency [domA, domB, domC] (by decide) domA
      (by decide)).2.2 0 (by decide) (by decide)⟩

/-- Witness for C9: the fixture rotated — A is the unique strict minimizer
(310 < 560 and 310 < 780), and both orderings select A at cost 310. -/
theorem c9_witness :
    find_optimal_leader get_latency [domA, domB, domC]
        = .tuple (some domA)
            (.num (calculate_total_latency get_latency domA
              [domA, domB, domC] 30))
      ∧ find_optimal_leader get_latency [domB, domC, domA]
        = .tuple (some domA)
            (.num (calculate_total_latency get_latency domA
              [domA, domB, domC] 30)) :=
  (c9_permutation_invariance get_latency [domA, domB, domC]
      [domB, domC, domA] (by decide)).2.2 domA 30 (by decide) (by decide)
    (by
      intro d hd hdL w hw
      fin_cases hd
      · exact absurd rfl hdL
      · rw [show calculate_commit_latency get_latency domB
            [domA, domB, domC] (quorumSize [domA, domB, domC]) = some 30
            from by decide] at hw
        cases hw
        decide
      · rw [show calculate_commit_latency get_latency domC
            [domA, domB, domC] (quorumSize [domA, domB, domC]) = some 40
            from by decide] at hw
        cases hw
        decide)

end PRaft
